import Mathlib

/-!
Verification of the rules data store of 3pseatBot: the per-channel
configuration and per-user offense records, their SQLite-backed storage,
and the memoizing caches of the `Rules` facade.

The implementation module `threepseat/rules/data.py` is exercised by
`tests/rules/data_test.py`.  The definitions below are a shallow embedding
of that module: the two record types, the two tables keyed by composite
keys, delete-then-insert upserts, and per-operation caches exposing
hit/miss counters.  Cache invalidation follows the behaviour the tests pin
down: a write calls the functools-style `cache_clear`, which drops every
entry of the affected cache and resets its hit and miss counters to zero
(`test_update_config_resets_cache` observes `misses == 1, hits == 0` on a
re-read of an untouched key after a write to a different key).
-/

/-- Modelled from the spec: the `ChannelConfig` record of
`threepseat/rules/data.py` (a NamedTuple), per-(guild, channel) moderation
policy.  Float fields are modelled as rationals; no arithmetic is performed
on them, they are only stored and compared. -/
structure ChannelConfig where
  guild_id : Int
  channel_id : Int
  event_expectancy : Rat
  event_duration : Int
  event_cooldown : Rat
  last_event : Int
  max_offenses : Int
  timeout_duration : Int
  prefixes : String
  deriving DecidableEq, Repr

/-- Modelled from the spec: the `UserOffenses` record of
`threepseat/rules/data.py`, a per-(guild, channel, user) violation
counter. -/
structure UserOffenses where
  guild_id : Int
  channel_id : Int
  user_id : Int
  current_offenses : Int
  total_offenses : Int
  last_offense : Int
  deriving DecidableEq, Repr

/-- Row predicate: the `channel_configs` row has composite key
`(g, c)` (the WHERE clause `guild_id = g AND channel_id = c`). -/
def sameConfigKey (g c : Int) (row : ChannelConfig) : Bool :=
  row.guild_id == g && row.channel_id == c

/-- Row predicate: the `user_offenses` row has composite key `(g, c, u)`. -/
def sameUserKey (g c u : Int) (row : UserOffenses) : Bool :=
  row.guild_id == g && row.channel_id == c && row.user_id == u

/-- Row predicate: the `user_offenses` row matches guild `g` and
channel `c` (the `list_users` WHERE clause). -/
def sameUsersKey (g c : Int) (row : UserOffenses) : Bool :=
  row.guild_id == g && row.channel_id == c

/-- Modelled from the spec: the durable state of the SQLite store behind
`threepseat/rules/data.py` — the set of created tables (as recorded in
`sqlite_master`) and the rows of the two relations. -/
structure Storage where
  tables : List String
  channel_configs : List ChannelConfig
  user_offenses : List UserOffenses
  deriving DecidableEq, Repr

/-- A freshly created store file: no tables, no rows. -/
def Storage.empty : Storage := ⟨[], [], []⟩

/-- Modelled from the spec: `CREATE TABLE IF NOT EXISTS name` — a no-op
when the table already exists, otherwise records the table. -/
def Storage.createTable (s : Storage) (name : String) : Storage :=
  if name ∈ s.tables then s else { s with tables := s.tables ++ [name] }

/-- Modelled from the spec: the schema setup run by `Rules.__init__`,
creating both tables idempotently. -/
def Storage.ensureTables (s : Storage) : Storage :=
  (s.createTable "channel_configs").createTable "user_offenses"

/-- Modelled from the spec: the upsert of a channel config — delete any
existing row for `(guild_id, channel_id)`, then insert the full record,
as one unit of work. -/
def Storage.put_config (s : Storage) (cfg : ChannelConfig) : Storage :=
  let kept :=
    s.channel_configs.filter
      (fun row => !(sameConfigKey cfg.guild_id cfg.channel_id row))
  { s with channel_configs := kept ++ [cfg] }

/-- Modelled from the spec: point lookup of a channel config by its
composite key; `none` is the absent marker (Python `None`). -/
def Storage.get_config (s : Storage) (g c : Int) : Option ChannelConfig :=
  s.channel_configs.find? (sameConfigKey g c)

/-- Modelled from the spec: the upsert of a user-offenses row — delete any
existing row for `(guild_id, channel_id, user_id)`, then insert the full
record. -/
def Storage.put_user (s : Storage) (u : UserOffenses) : Storage :=
  let kept :=
    s.user_offenses.filter
      (fun row => !(sameUserKey u.guild_id u.channel_id u.user_id row))
  { s with user_offenses := kept ++ [u] }

/-- Modelled from the spec: point lookup of a user-offenses row. -/
def Storage.get_user (s : Storage) (g c u : Int) : Option UserOffenses :=
  s.user_offenses.find? (sameUserKey g c u)

/-- Modelled from the spec: all `user_offenses` rows matching guild and
channel; the empty list (not an error) when none match. -/
def Storage.list_users (s : Storage) (g c : Int) : List UserOffenses :=
  s.user_offenses.filter (sameUsersKey g c)

/-- Modelled from the spec: a functools-style memoizing cache keyed by the
lookup arguments, exposing hit and miss counters via `cache_info()`. -/
structure Cache (κ α : Type) where
  entries : List (κ × α)
  hits : Nat
  misses : Nat
  deriving DecidableEq, Repr

/-- A fresh cache: no entries, zero counters. -/
def Cache.empty {κ α : Type} : Cache κ α := ⟨[], 0, 0⟩

/-- The cached value for key `k`, if present. -/
def Cache.lookup {κ α : Type} [DecidableEq κ] (c : Cache κ α) (k : κ) :
    Option α :=
  (c.entries.find? (fun e => decide (e.1 = k))).map Prod.snd

/-- A memoized read: on a hit return the stored value and bump `hits`; on a
miss store `value` (the result of the backing-store query, absent results
included) and bump `misses`. -/
def Cache.read {κ α : Type} [DecidableEq κ] (c : Cache κ α) (k : κ)
    (value : α) : α × Cache κ α :=
  match c.lookup k with
  | some v => (v, { c with hits := c.hits + 1 })
  | none =>
      (value,
       { c with entries := c.entries ++ [(k, value)],
                misses := c.misses + 1 })

/-- Modelled from the spec and the tests: functools `cache_clear()` — drops
every entry and resets both counters to zero. -/
def Cache.clear {κ α : Type} (_ : Cache κ α) : Cache κ α := ⟨[], 0, 0⟩

/-- Modelled from the spec: the `Rules` facade of
`threepseat/rules/data.py` — the storage plus one memoizing cache per read
operation (`get_config_cached`, `get_user_cached`, `get_users_cached`). -/
structure Rules where
  storage : Storage
  config_cache : Cache (Int × Int) (Option ChannelConfig)
  user_cache : Cache (Int × Int × Int) (Option UserOffenses)
  users_cache : Cache (Int × Int) (List UserOffenses)

/-- Modelled from the spec: `Rules(db_path=...)` — open the store file
(`none` models an absent file, created empty) and run the idempotent
schema creation; the caches start fresh.  Creation of parent directories
is a file-system side effect outside the data model. -/
def Rules.init (existing : Option Storage) : Rules :=
  { storage := (existing.getD Storage.empty).ensureTables,
    config_cache := Cache.empty,
    user_cache := Cache.empty,
    users_cache := Cache.empty }

/-- Uncached `Rules.get_config`: a direct storage query. -/
def Rules.get_config (r : Rules) (g c : Int) : Option ChannelConfig :=
  r.storage.get_config g c

/-- Uncached `Rules.get_user`. -/
def Rules.get_user (r : Rules) (g c u : Int) : Option UserOffenses :=
  r.storage.get_user g c u

/-- Uncached `Rules.get_users`. -/
def Rules.get_users (r : Rules) (g c : Int) : List UserOffenses :=
  r.storage.list_users g c

/-- `Rules.get_config_cached`: read through the config cache. -/
def Rules.get_config_cached (r : Rules) (g c : Int) :
    Option ChannelConfig × Rules :=
  let p := r.config_cache.read (g, c) (r.storage.get_config g c)
  (p.1, { r with config_cache := p.2 })

/-- `Rules.get_user_cached`: read through the user cache. -/
def Rules.get_user_cached (r : Rules) (g c u : Int) :
    Option UserOffenses × Rules :=
  let p := r.user_cache.read (g, c, u) (r.storage.get_user g c u)
  (p.1, { r with user_cache := p.2 })

/-- `Rules.get_users_cached`: read through the users-list cache. -/
def Rules.get_users_cached (r : Rules) (g c : Int) :
    List UserOffenses × Rules :=
  let p := r.users_cache.read (g, c) (r.storage.list_users g c)
  (p.1, { r with users_cache := p.2 })

/-- Modelled from the spec and the tests: `Rules.update_config` — upsert
the row, then `get_config_cached.cache_clear()`. -/
def Rules.update_config (r : Rules) (cfg : ChannelConfig) : Rules :=
  { r with storage := r.storage.put_config cfg,
           config_cache := r.config_cache.clear }

/-- Modelled from the spec and the tests: `Rules.update_user` — upsert the
row, then clear both the `get_user_cached` and `get_users_cached`
caches. -/
def Rules.update_user (r : Rules) (u : UserOffenses) : Rules :=
  { r with storage := r.storage.put_user u,
           user_cache := r.user_cache.clear,
           users_cache := r.users_cache.clear }

/-- One facade call, for stating properties of arbitrary call
sequences. -/
inductive Op where
  | putConfig (cfg : ChannelConfig)
  | putUser (u : UserOffenses)
  | readConfig (g c : Int)
  | readUser (g c u : Int)
  | readUsers (g c : Int)
  deriving DecidableEq, Repr

/-- Apply one facade call to the state. -/
def Rules.applyOp (r : Rules) : Op → Rules
  | .putConfig cfg => r.update_config cfg
  | .putUser u => r.update_user u
  | .readConfig g c => (r.get_config_cached g c).2
  | .readUser g c u => (r.get_user_cached g c u).2
  | .readUsers g c => (r.get_users_cached g c).2

/-- Apply a sequence of facade calls, left to right. -/
def Rules.applyOps (r : Rules) (ops : List Op) : Rules :=
  ops.foldl Rules.applyOp r

/-- The channel config used throughout `tests/rules/data_test.py`, with
the guild and channel key left as parameters. -/
def testConfig (g c : Int) : ChannelConfig :=
  { guild_id := g, channel_id := c, event_expectancy := 1/2,
    event_duration := 24, event_cooldown := 5, last_event := 0,
    max_offenses := 3, timeout_duration := 300,
    prefixes := "3pseat 3pfeet" }

/-- The user-offenses record used throughout `tests/rules/data_test.py`,
with the key left as parameters. -/
def testUser (g c u : Int) : UserOffenses :=
  { guild_id := g, channel_id := c, user_id := u, current_offenses := 0,
    total_offenses := 0, last_offense := 0 }

/-- The write sequence of `test_get_users`: three users in channel 1 and
one in channel 2, all in guild 1234. -/
def testOps : List Op :=
  [Op.putUser (testUser 1234 1 1), Op.putUser (testUser 1234 1 2),
   Op.putUser (testUser 1234 1 3), Op.putUser (testUser 1234 2 1)]

/-! ### Helper lemmas -/

/-- Searching rows that all fail the predicate finds nothing. -/
theorem find?_filter_not {α : Type} (p : α → Bool) (l : List α) :
    (l.filter (fun x => !(p x))).find? p = none := by
  rw [List.find?_eq_none]
  intro x hx
  rcases List.mem_filter.mp hx with ⟨_, hpx⟩
  simp only [Bool.not_eq_eq_eq_not, Bool.not_true] at hpx
  simp [hpx]

/-- The row just upserted by `put_config` is found by its own key. -/
theorem put_get_config (s : Storage) (cfg : ChannelConfig) :
    (s.put_config cfg).get_config cfg.guild_id cfg.channel_id = some cfg := by
  unfold Storage.put_config Storage.get_config
  rw [List.find?_append, find?_filter_not]
  simp [sameConfigKey]

/-- The row just upserted by `put_user` is found by its own key. -/
theorem put_get_user (s : Storage) (u : UserOffenses) :
    (s.put_user u).get_user u.guild_id u.channel_id u.user_id = some u := by
  unfold Storage.put_user Storage.get_user
  rw [List.find?_append, find?_filter_not]
  simp [sameUserKey]

/-- The row just upserted by `put_user` is in its channel's user list. -/
theorem put_mem_list_users (s : Storage) (u : UserOffenses) :
    u ∈ (s.put_user u).list_users u.guild_id u.channel_id := by
  unfold Storage.put_user Storage.list_users
  rw [List.filter_append]
  refine List.mem_append.mpr (Or.inr ?_)
  simp [sameUsersKey]

/-! ### Claim theorems -/

/-- Claim C1 (upsert replace law): after `update_config c1` then `update_config c2`
on the same key, `get_config` returns exactly `c2`, every queryable
`channel_configs` row for that key is `c2`, and when `c1 ≠ c2` the record
`c1` is no longer in storage at all. -/
theorem upsert_replace_law (r : Rules) (c1 c2 : ChannelConfig)
    (hg : c1.guild_id = c2.guild_id) (hc : c1.channel_id = c2.channel_id) :
    ((r.update_config c1).update_config c2).get_config c2.guild_id
        c2.channel_id = some c2 ∧
    (∀ row ∈ ((r.update_config c1).update_config c2).storage.channel_configs,
      sameConfigKey c2.guild_id c2.channel_id row = true → row = c2) ∧
    (c1 ≠ c2 →
      c1 ∉ ((r.update_config c1).update_config c2).storage.channel_configs) := by
  refine ⟨put_get_config _ _, ?_, ?_⟩
  · intro row hmem hkey
    unfold Rules.update_config Storage.put_config at hmem
    rcases List.mem_append.mp hmem with hl | hr
    · rcases List.mem_filter.mp hl with ⟨_, hnk⟩
      simp only [Bool.not_eq_eq_eq_not, Bool.not_true] at hnk
      rw [hkey] at hnk
      exact absurd hnk (by simp)
    · simpa using hr
  · intro hne hmem
    unfold Rules.update_config Storage.put_config at hmem
    rcases List.mem_append.mp hmem with hl | hr
    · rcases List.mem_filter.mp hl with ⟨_, hnk⟩
      simp [sameConfigKey, hg, hc] at hnk
    · exact hne (by simpa using hr)

/-- Witness for C1 at the spec's concrete scenario: key `(1, 10)`,
`max_offenses` 3 then 5. -/
theorem upsert_replace_law_witness :
    (((Rules.init none).update_config (testConfig 1 10)).update_config
        { testConfig 1 10 with max_offenses := 5 }).get_config 1 10 =
      some { testConfig 1 10 with max_offenses := 5 } :=
  (upsert_replace_law (Rules.init none) (testConfig 1 10)
    { testConfig 1 10 with max_offenses := 5 } rfl rfl).1

/-- Claim C2 (cache coherence): a cached read issued immediately after an update
to its key returns the just-written data, never the pre-update value:
`get_config_cached` returns the new config, `get_user_cached` the new user
record, and `get_users_cached` the fresh storage list, which contains the
new record. -/
theorem cache_coherence (r : Rules) (cfg : ChannelConfig) (u : UserOffenses) :
    ((r.update_config cfg).get_config_cached cfg.guild_id
        cfg.channel_id).1 = some cfg ∧
    ((r.update_user u).get_user_cached u.guild_id u.channel_id
        u.user_id).1 = some u ∧
    ((r.update_user u).get_users_cached u.guild_id u.channel_id).1 =
      (r.storage.put_user u).list_users u.guild_id u.channel_id ∧
    u ∈ ((r.update_user u).get_users_cached u.guild_id u.channel_id).1 := by
  exact ⟨put_get_config r.storage cfg, put_get_user r.storage u, rfl,
    put_mem_list_users r.storage u⟩

/-- Claim C3 refuted: the concrete scenario of the spec — read key
`(1, 1)` (miss), read again (hit), then `update_config` on the different
key `(1, 2)` — after which the entry for `(1, 1)` is gone and a re-read of
`(1, 1)` is a miss with counters reset (`misses = 1`, `hits = 0`), exactly
as `test_update_config_resets_cache` asserts: invalidation is global, not
key-scoped. -/
theorem key_scoped_invalidation_counterexample :
    let r1 := (Rules.init none).update_config (testConfig 1 1)
    let r2 := (r1.get_config_cached 1 1).2
    let r3 := (r2.get_config_cached 1 1).2
    let r4 := r3.update_config (testConfig 1 2)
    let r5 := (r4.get_config_cached 1 1).2
    r3.config_cache.hits = 1 ∧ r3.config_cache.misses = 1 ∧
    r4.config_cache.lookup (1, 1) = none ∧
    r5.config_cache.hits = 0 ∧ r5.config_cache.misses = 1 := by decide

/-- Claim C3 amended: after a miss-read and a hit-read of key `(g1, c1)`, a
successful `update_config` on a different key `(g2, c2)` clears the whole
`get_config` cache and resets both counters to zero, so the subsequent
read of `(g1, c1)` is a miss, reporting `misses = 1`, `hits = 0`. -/
theorem update_config_invalidation_is_global (r : Rules)
    (g1 c1 g2 c2 : Int) (cfg : ChannelConfig)
    (hg : cfg.guild_id = g2) (hc : cfg.channel_id = c2)
    (hne : ¬(g1 = g2 ∧ c1 = c2)) :
    let r1 := (r.get_config_cached g1 c1).2
    let r2 := (r1.get_config_cached g1 c1).2
    let r3 := r2.update_config cfg
    r3.config_cache.entries = [] ∧ r3.config_cache.hits = 0 ∧
    r3.config_cache.misses = 0 ∧
    (r3.get_config_cached g1 c1).2.config_cache.misses = 1 ∧
    (r3.get_config_cached g1 c1).2.config_cache.hits = 0 := by
  simp [Rules.update_config, Rules.get_config_cached, Cache.read,
    Cache.lookup, Cache.clear]

/-- Witness for the amended C3 at the concrete scenario: keys `(1, 1)` and
`(1, 2)`. -/
theorem update_config_invalidation_is_global_witness :
    (let r1 := ((Rules.init none).get_config_cached 1 1).2
     let r2 := (r1.get_config_cached 1 1).2
     let r3 := r2.update_config (testConfig 1 2)
     r3.config_cache.entries = [] ∧ r3.config_cache.hits = 0 ∧
     r3.config_cache.misses = 0 ∧
     (r3.get_config_cached 1 1).2.config_cache.misses = 1 ∧
     (r3.get_config_cached 1 1).2.config_cache.hits = 0) :=
  update_config_invalidation_is_global (Rules.init none) 1 1 1 2
    (testConfig 1 2) rfl rfl (by decide)

/-- Claim C4 (hit/miss accounting): for each of the three caches, a write to a
key followed by two cached reads of that key yields exactly one miss then
one hit, and the second read returns the same value as the first. -/
theorem hit_miss_accounting (r : Rules) (cfg : ChannelConfig)
    (u : UserOffenses) :
    (let r1 := r.update_config cfg
     let q1 := r1.get_config_cached cfg.guild_id cfg.channel_id
     let q2 := q1.2.get_config_cached cfg.guild_id cfg.channel_id
     q1.2.config_cache.misses = 1 ∧ q1.2.config_cache.hits = 0 ∧
     q2.2.config_cache.misses = 1 ∧ q2.2.config_cache.hits = 1 ∧
     q2.1 = q1.1) ∧
    (let r1 := r.update_user u
     let q1 := r1.get_user_cached u.guild_id u.channel_id u.user_id
     let q2 := q1.2.get_user_cached u.guild_id u.channel_id u.user_id
     q1.2.user_cache.misses = 1 ∧ q1.2.user_cache.hits = 0 ∧
     q2.2.user_cache.misses = 1 ∧ q2.2.user_cache.hits = 1 ∧
     q2.1 = q1.1) ∧
    (let r1 := r.update_user u
     let q1 := r1.get_users_cached u.guild_id u.channel_id
     let q2 := q1.2.get_users_cached u.guild_id u.channel_id
     q1.2.users_cache.misses = 1 ∧ q1.2.users_cache.hits = 0 ∧
     q2.2.users_cache.misses = 1 ∧ q2.2.users_cache.hits = 1 ∧
     q2.1 = q1.1) := by
  refine ⟨?_, ?_, ?_⟩ <;>
    simp [Rules.update_config, Rules.update_user, Rules.get_config_cached,
      Rules.get_user_cached, Rules.get_users_cached, Cache.read,
      Cache.lookup, Cache.clear]

/-- Claim C5 (dual eviction on user writes): after `update_user u` the cached
`get_user` entry for `u`'s exact key and the cached `get_users` entry for
`u`'s `(guild_id, channel_id)` are both gone, and the next read of each of
those keys is a miss. -/
theorem update_user_dual_eviction (r : Rules) (u : UserOffenses) :
    (r.update_user u).user_cache.lookup
        (u.guild_id, u.channel_id, u.user_id) = none ∧
    (r.update_user u).users_cache.lookup (u.guild_id, u.channel_id) = none ∧
    ((r.update_user u).get_user_cached u.guild_id u.channel_id
        u.user_id).2.user_cache.misses = 1 ∧
    ((r.update_user u).get_user_cached u.guild_id u.channel_id
        u.user_id).2.user_cache.hits = 0 ∧
    ((r.update_user u).get_users_cached u.guild_id
        u.channel_id).2.users_cache.misses = 1 ∧
    ((r.update_user u).get_users_cached u.guild_id
        u.channel_id).2.users_cache.hits = 0 := by
  simp [Rules.update_user, Rules.get_user_cached, Rules.get_users_cached,
    Cache.read, Cache.lookup, Cache.clear]

/-- Claim C10 (global cache clear on write): `update_config` empties the whole
`get_config` cache and zeroes its counters; `update_user` does the same to
both the `get_user` and `get_users` caches; hence the first subsequent
read of any key whatsoever is a miss reporting `misses = 1`, `hits = 0`. -/
theorem global_cache_clear_on_write (r : Rules) (cfg : ChannelConfig)
    (u : UserOffenses) (g c uid : Int) :
    (r.update_config cfg).config_cache.entries = [] ∧
    (r.update_config cfg).config_cache.hits = 0 ∧
    (r.update_config cfg).config_cache.misses = 0 ∧
    (r.update_user u).user_cache.entries = [] ∧
    (r.update_user u).user_cache.hits = 0 ∧
    (r.update_user u).user_cache.misses = 0 ∧
    (r.update_user u).users_cache.entries = [] ∧
    (r.update_user u).users_cache.hits = 0 ∧
    (r.update_user u).users_cache.misses = 0 ∧
    ((r.update_config cfg).get_config_cached g c).2.config_cache.misses = 1 ∧
    ((r.update_config cfg).get_config_cached g c).2.config_cache.hits = 0 ∧
    ((r.update_user u).get_user_cached g c uid).2.user_cache.misses = 1 ∧
    ((r.update_user u).get_user_cached g c uid).2.user_cache.hits = 0 ∧
    ((r.update_user u).get_users_cached g c).2.users_cache.misses = 1 ∧
    ((r.update_user u).get_users_cached g c).2.users_cache.hits = 0 := by
  simp [Rules.update_config, Rules.update_user, Rules.get_config_cached,
    Rules.get_user_cached, Rules.get_users_cached, Cache.read,
    Cache.lookup, Cache.clear]

/-- The call `createTable` records its table name. -/
theorem mem_createTable_self (s : Storage) (n : String) :
    n ∈ (s.createTable n).tables := by
  unfold Storage.createTable
  split
  · assumption
  · simp

/-- The call `createTable` keeps previously recorded tables. -/
theorem mem_createTable_of_mem (s : Storage) (n m : String)
    (h : m ∈ s.tables) : m ∈ (s.createTable n).tables := by
  unfold Storage.createTable
  split
  · exact h
  · exact List.mem_append.mpr (Or.inl h)

/-- The call `createTable` is a no-op when the table already exists. -/
theorem createTable_eq_of_mem (s : Storage) (n : String)
    (h : n ∈ s.tables) : s.createTable n = s := by
  unfold Storage.createTable
  simp [h]

/-- The call `createTable` never touches the data rows. -/
theorem createTable_rows (s : Storage) (n : String) :
    (s.createTable n).channel_configs = s.channel_configs ∧
    (s.createTable n).user_offenses = s.user_offenses := by
  unfold Storage.createTable
  split <;> exact ⟨rfl, rfl⟩

/-- Claim C9 (idempotent open): opening a store ensures both tables exist and
leaves the data rows untouched; creating a table that already exists is a
no-op; re-opening the same store changes nothing; and opening an absent
file yields a store with both tables and no rows. -/
theorem idempotent_open (s : Storage) :
    "channel_configs" ∈ (Rules.init (some s)).storage.tables ∧
    "user_offenses" ∈ (Rules.init (some s)).storage.tables ∧
    (Rules.init (some s)).storage.channel_configs = s.channel_configs ∧
    (Rules.init (some s)).storage.user_offenses = s.user_offenses ∧
    (Rules.init (some (Rules.init (some s)).storage)).storage =
      (Rules.init (some s)).storage ∧
    (∀ n : String, (s.createTable n).createTable n = s.createTable n) ∧
    (Rules.init none).storage.channel_configs = [] ∧
    (Rules.init none).storage.user_offenses = [] ∧
    "channel_configs" ∈ (Rules.init none).storage.tables ∧
    "user_offenses" ∈ (Rules.init none).storage.tables := by
  refine ⟨?_, ?_, ?_, ?_, ?_, ?_, rfl, rfl, by decide, by decide⟩
  · exact mem_createTable_of_mem _ _ _ (mem_createTable_self _ _)
  · exact mem_createTable_self _ _
  · have h1 := createTable_rows s "channel_configs"
    have h2 := createTable_rows (s.createTable "channel_configs")
      "user_offenses"
    simp [Rules.init, Storage.ensureTables, h2.1, h1.1]
  · have h1 := createTable_rows s "channel_configs"
    have h2 := createTable_rows (s.createTable "channel_configs")
      "user_offenses"
    simp [Rules.init, Storage.ensureTables, h2.2, h1.2]
  · have hx : (Rules.init (some (Rules.init (some s)).storage)).storage =
        Storage.ensureTables (Rules.init (some s)).storage := rfl
    have hcc : "channel_configs" ∈ (Rules.init (some s)).storage.tables :=
      mem_createTable_of_mem _ _ _ (mem_createTable_self _ _)
    have huo : "user_offenses" ∈ (Rules.init (some s)).storage.tables :=
      mem_createTable_self _ _
    rw [hx]
    unfold Storage.ensureTables
    rw [createTable_eq_of_mem _ _ hcc]
    exact createTable_eq_of_mem _ _ huo
  · intro n
    exact createTable_eq_of_mem _ n (mem_createTable_self s n)

/-- Unfolding: applying a sequence starting with `op`. -/
theorem applyOps_cons (r : Rules) (op : Op) (ops : List Op) :
    r.applyOps (op :: ops) = (r.applyOp op).applyOps ops := rfl

/-- Unfolding: applying a concatenation of sequences. -/
theorem applyOps_append (r : Rules) (l1 l2 : List Op) :
    r.applyOps (l1 ++ l2) = (r.applyOps l1).applyOps l2 :=
  List.foldl_append _ _ _ _

/-- Any property holding of every `channel_configs` row and of every config
ever written by the call sequence holds of every row afterwards. -/
theorem config_rows_invariant (ops : List Op) (r : Rules)
    (P : ChannelConfig → Prop)
    (h0 : ∀ row ∈ r.storage.channel_configs, P row)
    (hops : ∀ cfg, Op.putConfig cfg ∈ ops → P cfg) :
    ∀ row ∈ (r.applyOps ops).storage.channel_configs, P row := by
  induction ops generalizing r with
  | nil => exact h0
  | cons op ops ih =>
      rw [applyOps_cons]
      refine ih (r.applyOp op) ?_
        (fun cfg hm => hops cfg (List.mem_cons_of_mem _ hm))
      intro row hmem
      cases op with
      | putConfig cfg =>
          unfold Rules.applyOp Rules.update_config Storage.put_config
            at hmem
          rcases List.mem_append.mp hmem with hl | hr
          · exact h0 row (List.mem_filter.mp hl).1
          · have hrow : row = cfg := by simpa using hr
            exact hrow ▸ hops cfg (List.mem_cons_self _ _)
      | putUser u => exact h0 row hmem
      | readConfig g c => exact h0 row hmem
      | readUser g c u => exact h0 row hmem
      | readUsers g c => exact h0 row hmem

/-- Any property holding of every `user_offenses` row and of every user
record ever written by the call sequence holds of every row afterwards. -/
theorem user_rows_invariant (ops : List Op) (r : Rules)
    (P : UserOffenses → Prop)
    (h0 : ∀ row ∈ r.storage.user_offenses, P row)
    (hops : ∀ u, Op.putUser u ∈ ops → P u) :
    ∀ row ∈ (r.applyOps ops).storage.user_offenses, P row := by
  induction ops generalizing r with
  | nil => exact h0
  | cons op ops ih =>
      rw [applyOps_cons]
      refine ih (r.applyOp op) ?_
        (fun u hm => hops u (List.mem_cons_of_mem _ hm))
      intro row hmem
      cases op with
      | putUser u =>
          unfold Rules.applyOp Rules.update_user Storage.put_user at hmem
          rcases List.mem_append.mp hmem with hl | hr
          · exact h0 row (List.mem_filter.mp hl).1
          · have hrow : row = u := by simpa using hr
            exact hrow ▸ hops u (List.mem_cons_self _ _)
      | putConfig cfg => exact h0 row hmem
      | readConfig g c => exact h0 row hmem
      | readUser g c u => exact h0 row hmem
      | readUsers g c => exact h0 row hmem

/-- Claim C6 (absence law): for a key never written by the call sequence,
`get_config` and `get_user` return the absent marker and `get_users`
returns the empty list; none of the lookups is an error. -/
theorem absence_law (ops : List Op) (g c u : Int)
    (hcfg : ∀ cfg, Op.putConfig cfg ∈ ops →
        ¬(cfg.guild_id = g ∧ cfg.channel_id = c))
    (husr : ∀ w, Op.putUser w ∈ ops →
        ¬(w.guild_id = g ∧ w.channel_id = c)) :
    ((Rules.init none).applyOps ops).get_config g c = none ∧
    ((Rules.init none).applyOps ops).get_user g c u = none ∧
    ((Rules.init none).applyOps ops).get_users g c = [] := by
  have hrows : ∀ row ∈ ((Rules.init none).applyOps
      ops).storage.channel_configs, sameConfigKey g c row = false := by
    refine config_rows_invariant ops (Rules.init none) _ (by simp [Rules.init,
      Storage.ensureTables, Storage.createTable, Storage.empty]) ?_
    intro cfg hm
    have h := hcfg cfg hm
    simp only [not_and] at h
    by_cases hgid : cfg.guild_id = g
    · simp [sameConfigKey, hgid, h hgid]
    · simp [sameConfigKey, hgid]
  have urows : ∀ row ∈ ((Rules.init none).applyOps
      ops).storage.user_offenses, sameUsersKey g c row = false := by
    refine user_rows_invariant ops (Rules.init none) _ (by simp [Rules.init,
      Storage.ensureTables, Storage.createTable, Storage.empty]) ?_
    intro w hm
    have h := husr w hm
    simp only [not_and] at h
    by_cases hgid : w.guild_id = g
    · simp [sameUsersKey, hgid, h hgid]
    · simp [sameUsersKey, hgid]
  refine ⟨?_, ?_, ?_⟩
  · rw [Rules.get_config, Storage.get_config, List.find?_eq_none]
    intro row hm
    simp [hrows row hm]
  · rw [Rules.get_user, Storage.get_user, List.find?_eq_none]
    intro row hm
    have h2 := urows row hm
    simp only [sameUsersKey, Bool.and_eq_false_iff] at h2
    rcases h2 with h2 | h2 <;> simp [sameUserKey, h2]
  · rw [Rules.get_users, Storage.list_users, List.filter_eq_nil_iff]
    intro row hm
    simp [urows row hm]

/-- Witness for C6: one config write at `(1, 10)` and one user write at
`(1234, 5678, 1)`; the key `(3, 12)` (user `9`) was never written. -/
theorem absence_law_witness :
    ((Rules.init none).applyOps [Op.putConfig (testConfig 1 10),
        Op.putUser (testUser 1234 5678 1)]).get_config 3 12 = none ∧
    ((Rules.init none).applyOps [Op.putConfig (testConfig 1 10),
        Op.putUser (testUser 1234 5678 1)]).get_user 3 12 9 = none ∧
    ((Rules.init none).applyOps [Op.putConfig (testConfig 1 10),
        Op.putUser (testUser 1234 5678 1)]).get_users 3 12 = [] :=
  absence_law [Op.putConfig (testConfig 1 10),
      Op.putUser (testUser 1234 5678 1)] 3 12 9
    (by intro cfg hm; simp at hm; subst hm; decide)
    (by intro w hm; simp at hm; subst hm; decide)

/-- An upsert into `channel_configs` keeps every key's row count at most
one. -/
theorem countP_put_config (s : Storage) (cfg : ChannelConfig) (g c : Int)
    (h : s.channel_configs.countP (sameConfigKey g c) ≤ 1) :
    (s.put_config cfg).channel_configs.countP (sameConfigKey g c) ≤ 1 := by
  unfold Storage.put_config
  rw [List.countP_append]
  by_cases hk : sameConfigKey g c cfg = true
  · have hg : cfg.guild_id = g ∧ cfg.channel_id = c := by
      simpa [sameConfigKey] using hk
    have hz : (s.channel_configs.filter
        (fun row => !(sameConfigKey cfg.guild_id cfg.channel_id
          row))).countP (sameConfigKey g c) = 0 := by
      rw [List.countP_eq_zero]
      intro a ha
      rcases List.mem_filter.mp ha with ⟨_, hna⟩
      simp only [hg.1, hg.2, Bool.not_eq_eq_eq_not, Bool.not_true] at hna
      simp [hna]
    simp [hz, hk]
  · have hone : List.countP (sameConfigKey g c) [cfg] = 0 := by
      simp [List.countP_cons, hk]
    have hle : (s.channel_configs.filter
        (fun row => !(sameConfigKey cfg.guild_id cfg.channel_id
          row))).countP (sameConfigKey g c) ≤
        s.channel_configs.countP (sameConfigKey g c) := by
      rw [List.countP_filter]
      exact List.countP_mono_left (fun a _ hpa => by
        simp only [Bool.and_eq_true] at hpa
        exact hpa.1)
    omega

/-- An upsert into `user_offenses` keeps every key's row count at most
one. -/
theorem countP_put_user (s : Storage) (w : UserOffenses) (g c u : Int)
    (h : s.user_offenses.countP (sameUserKey g c u) ≤ 1) :
    (s.put_user w).user_offenses.countP (sameUserKey g c u) ≤ 1 := by
  unfold Storage.put_user
  rw [List.countP_append]
  by_cases hk : sameUserKey g c u w = true
  · have hg : (w.guild_id = g ∧ w.channel_id = c) ∧ w.user_id = u := by
      simpa [sameUserKey] using hk
    have hz : (s.user_offenses.filter
        (fun row => !(sameUserKey w.guild_id w.channel_id w.user_id
          row))).countP (sameUserKey g c u) = 0 := by
      rw [List.countP_eq_zero]
      intro a ha
      rcases List.mem_filter.mp ha with ⟨_, hna⟩
      simp only [hg.1.1, hg.1.2, hg.2, Bool.not_eq_eq_eq_not,
        Bool.not_true] at hna
      simp [hna]
    simp [hz, hk]
  · have hone : List.countP (sameUserKey g c u) [w] = 0 := by
      simp [List.countP_cons, hk]
    have hle : (s.user_offenses.filter
        (fun row => !(sameUserKey w.guild_id w.channel_id w.user_id
          row))).countP (sameUserKey g c u) ≤
        s.user_offenses.countP (sameUserKey g c u) := by
      rw [List.countP_filter]
      exact List.countP_mono_left (fun a _ hpa => by
        simp only [Bool.and_eq_true] at hpa
        exact hpa.1)
    omega

/-- Claim C7 (composite-key uniqueness): after any call sequence from a fresh
store, `channel_configs` holds at most one row per `(guild_id, channel_id)`
and `user_offenses` at most one row per `(guild_id, channel_id, user_id)`;
moreover an upsert stores the full record, retrievable whole by its key. -/
theorem composite_key_uniqueness (ops : List Op) (g c uid : Int)
    (s : Storage) (cfg : ChannelConfig) (w : UserOffenses) :
    ((Rules.init none).applyOps ops).storage.channel_configs.countP
        (sameConfigKey g c) ≤ 1 ∧
    ((Rules.init none).applyOps ops).storage.user_offenses.countP
        (sameUserKey g c uid) ≤ 1 ∧
    (s.put_config cfg).get_config cfg.guild_id cfg.channel_id = some cfg ∧
    (s.put_user w).get_user w.guild_id w.channel_id w.user_id = some w := by
  refine ⟨?_, ?_, put_get_config s cfg, put_get_user s w⟩
  · have key : ∀ (r : Rules),
        r.storage.channel_configs.countP (sameConfigKey g c) ≤ 1 →
        (r.applyOps ops).storage.channel_configs.countP
          (sameConfigKey g c) ≤ 1 := by
      induction ops with
      | nil => exact fun r h => h
      | cons op ops ih =>
          intro r h
          rw [applyOps_cons]
          refine ih (r.applyOp op) ?_
          cases op with
          | putConfig cfg' => exact countP_put_config r.storage cfg' g c h
          | putUser u' => exact h
          | readConfig a b => exact h
          | readUser a b d => exact h
          | readUsers a b => exact h
    exact key (Rules.init none) (by simp [Rules.init, Storage.ensureTables,
      Storage.createTable, Storage.empty])
  · have key : ∀ (r : Rules),
        r.storage.user_offenses.countP (sameUserKey g c uid) ≤ 1 →
        (r.applyOps ops).storage.user_offenses.countP
          (sameUserKey g c uid) ≤ 1 := by
      induction ops with
      | nil => exact fun r h => h
      | cons op ops ih =>
          intro r h
          rw [applyOps_cons]
          refine ih (r.applyOp op) ?_
          cases op with
          | putConfig cfg' => exact h
          | putUser u' => exact countP_put_user r.storage u' g c uid h
          | readConfig a b => exact h
          | readUser a b d => exact h
          | readUsers a b => exact h
    exact key (Rules.init none) (by simp [Rules.init, Storage.ensureTables,
      Storage.createTable, Storage.empty])

/-- A `user_offenses` row survives any call sequence that never writes its
exact `(guild_id, channel_id, user_id)` key again. -/
theorem user_row_preserved (ops : List Op) (r : Rules) (row : UserOffenses)
    (hmem : row ∈ r.storage.user_offenses)
    (h : ∀ w, Op.putUser w ∈ ops →
        ¬(w.guild_id = row.guild_id ∧ w.channel_id = row.channel_id ∧
          w.user_id = row.user_id)) :
    row ∈ (r.applyOps ops).storage.user_offenses := by
  induction ops generalizing r with
  | nil => exact hmem
  | cons op ops ih =>
      rw [applyOps_cons]
      refine ih (r.applyOp op) ?_
        (fun w hm => h w (List.mem_cons_of_mem _ hm))
      cases op with
      | putUser w =>
          have hk := h w (List.mem_cons_self _ _)
          show row ∈ (r.storage.put_user w).user_offenses
          unfold Storage.put_user
          refine List.mem_append.mpr (Or.inl (List.mem_filter.mpr
            ⟨hmem, ?_⟩))
          simp only [not_and] at hk
          simp only [sameUserKey, Bool.not_eq_eq_eq_not, Bool.not_true,
            Bool.and_eq_false_iff, beq_eq_false_iff_ne, ne_eq]
          omega
      | putConfig cfg => exact hmem
      | readConfig a b => exact hmem
      | readUser a b d => exact hmem
      | readUsers a b => exact hmem

/-- Claim C8 (list scoping): `get_users g c` after a call sequence from a fresh
store returns only records written under exactly `(g, c)` (soundness);
contains every record whose key was not overwritten later (completeness);
and is the empty list — not an error — when no record was ever written
under `(g, c)`. -/
theorem list_scoping (ops : List Op) (g c : Int) :
    (∀ u ∈ ((Rules.init none).applyOps ops).get_users g c,
        u.guild_id = g ∧ u.channel_id = c ∧ Op.putUser u ∈ ops) ∧
    (∀ (l1 : List Op) (w : UserOffenses) (l2 : List Op),
        ops = l1 ++ Op.putUser w :: l2 → w.guild_id = g →
        w.channel_id = c →
        (∀ w', Op.putUser w' ∈ l2 →
            ¬(w'.guild_id = w.guild_id ∧ w'.channel_id = w.channel_id ∧
              w'.user_id = w.user_id)) →
        w ∈ ((Rules.init none).applyOps ops).get_users g c) ∧
    ((∀ w, Op.putUser w ∈ ops → ¬(w.guild_id = g ∧ w.channel_id = c)) →
        ((Rules.init none).applyOps ops).get_users g c = []) := by
  refine ⟨?_, ?_, ?_⟩
  · intro u hu
    rw [Rules.get_users, Storage.list_users] at hu
    rcases List.mem_filter.mp hu with ⟨htab, hkey⟩
    have hprov : ∀ row ∈ ((Rules.init none).applyOps
        ops).storage.user_offenses, Op.putUser row ∈ ops :=
      user_rows_invariant ops (Rules.init none) _ (by simp [Rules.init,
        Storage.ensureTables, Storage.createTable, Storage.empty])
        (fun _ h => h)
    have hk : u.guild_id = g ∧ u.channel_id = c := by
      simpa [sameUsersKey] using hkey
    exact ⟨hk.1, hk.2, hprov u htab⟩
  · intro l1 w l2 hsplit hg hc hlast
    subst hsplit
    rw [applyOps_append, applyOps_cons]
    have hstart : w ∈ (((Rules.init none).applyOps l1).applyOp
        (Op.putUser w)).storage.user_offenses := by
      show w ∈ (((Rules.init none).applyOps
        l1).storage.put_user w).user_offenses
      unfold Storage.put_user
      exact List.mem_append.mpr (Or.inr (List.mem_singleton.mpr rfl))
    have hpres := user_row_preserved l2 _ w hstart hlast
    rw [Rules.get_users, Storage.list_users]
    exact List.mem_filter.mpr ⟨hpres, by simp [sameUsersKey, hg, hc]⟩
  · intro hnone
    have urows : ∀ row ∈ ((Rules.init none).applyOps
        ops).storage.user_offenses, sameUsersKey g c row = false := by
      refine user_rows_invariant ops (Rules.init none) _ (by
        simp [Rules.init, Storage.ensureTables, Storage.createTable,
          Storage.empty]) ?_
      intro w hm
      have h := hnone w hm
      simp only [not_and] at h
      by_cases hgid : w.guild_id = g
      · simp [sameUsersKey, hgid, h hgid]
      · simp [sameUsersKey, hgid]
    rw [Rules.get_users, Storage.list_users, List.filter_eq_nil_iff]
    intro row hm
    simp [urows row hm]


/-- Witness for C8 at the `test_get_users` scenario: user 2's record is in
`get_users 1234 1`, and `get_users 1234 3` is empty. -/
theorem list_scoping_witness :
    testUser 1234 1 2 ∈
      ((Rules.init none).applyOps testOps).get_users 1234 1 ∧
    ((Rules.init none).applyOps testOps).get_users 1234 3 = [] := by
  constructor
  · refine (list_scoping testOps 1234 1).2.1
      [Op.putUser (testUser 1234 1 1)] (testUser 1234 1 2)
      [Op.putUser (testUser 1234 1 3), Op.putUser (testUser 1234 2 1)]
      rfl rfl rfl ?_
    intro w' hm
    simp only [List.mem_cons, List.mem_singleton, List.not_mem_nil,
      or_false, Op.putUser.injEq] at hm
    rcases hm with h | h <;> subst h <;> decide
  · refine (list_scoping testOps 1234 3).2.2 ?_
    intro w hm
    simp only [testOps, List.mem_cons, List.not_mem_nil, or_false,
      Op.putUser.injEq] at hm
    rcases hm with h | h | h | h <;> subst h <;> decide
